import Mathlib

/-!
# Verification of the BBVA bank-statement line parser

Shallow embedding of `extractor_estado_cuenta_bbva.py` and
`StreamlitApp_extractor_estado_cuenta_bbva.py`: the numeric-token
parser (`RE_NUMS`, `clean_num`), the debit-style transaction grouper
(`parse_debito`), the credit-style single-line matcher (`RE_CREDITO`,
`parse_credito` of the Streamlit variant, which carries the signed
`Monto` column), and the credit-style totals aggregator.

Python regular expressions are embedded through a small backtracking
engine (`reRun`) whose alternative/star ordering mirrors the Python
`re` module: greedy pieces try the longer continuation first, lazy
pieces the shorter one, and the overall result is the first success in
that order.  Monetary values are represented as rationals; Python
`float` on the plain decimal literals produced here is modelled by an
exact decimal parser.
-/

namespace BBVA

/-- Characters matched by the regex class `\s` (ASCII whitespace, the
set relevant to these statement lines). -/
def isSpaceChar (c : Char) : Bool :=
  c = ' ' || c = '\t' || c = '\n' || c = '\x0d' || c = '\x0c' || c = '\x0b'

/-- Regular expressions, as used by the source patterns: character
classes, sequencing, alternation (left preferred), greedy star, lazy
star, empty, and numbered capture groups. -/
inductive RE : Type where
  | cls (p : Char → Bool)
  | seq (a b : RE)
  | alt (a b : RE)
  | star (a : RE)
  | lstar (a : RE)
  | eps
  | grp (i : Nat) (a : RE)

/-- Capture environment: group number ↦ captured text, most recent
first. -/
abbrev Caps : Type := List (Nat × String)

/-- Value of a capture group (empty string when the group is absent,
as no optional groups occur in the embedded patterns). -/
def capGet (caps : Caps) (i : Nat) : String :=
  (List.lookup i caps).getD ""

/-- Number of nodes of a regex, used to size the engine fuel. -/
def reSize : RE → Nat
  | .cls _ => 1
  | .eps => 1
  | .grp _ a => reSize a + 1
  | .seq a b => reSize a + reSize b + 1
  | .alt a b => reSize a + reSize b + 1
  | .star a => reSize a + 1
  | .lstar a => reSize a + 1

/-- Backtracking matcher in continuation-passing style.  `k` receives
the unconsumed input and the captures; the result is the first success
in Python's preference order (greedy `star` tries one more iteration
first, lazy `lstar` tries the continuation first; a star iteration
that consumes nothing is cut off, as in the Python engine).  `fuel`
bounds the depth of nested engine calls: along any call chain every
frame either moves to a strict subterm of the regex at the same input
position or re-enters a star after consuming at least one character,
so the chain is no deeper than `(regex size + 1) * (input length + 1)`
and `reFuel` below never runs out. -/
def reRun {σ : Type} : Nat → RE → List Char → Caps →
    (List Char → Caps → Option σ) → Option σ
  | 0, _, _, _, _ => none
  | fuel + 1, r, s, caps, k =>
    match r with
    | .eps => k s caps
    | .cls p =>
      match s with
      | [] => none
      | c :: rest => if p c then k rest caps else none
    | .grp i a =>
      reRun fuel a s caps (fun s' caps' =>
        k s' ((i, ((s.take (s.length - s'.length)).asString)) :: caps'))
    | .seq a b =>
      reRun fuel a s caps (fun s' caps' => reRun fuel b s' caps' k)
    | .alt a b =>
      match reRun fuel a s caps k with
      | some res => some res
      | none => reRun fuel b s caps k
    | .star a =>
      match reRun fuel a s caps (fun s' caps' =>
        if s'.length < s.length then reRun fuel (.star a) s' caps' k else none) with
      | some res => some res
      | none => k s caps
    | .lstar a =>
      match k s caps with
      | some res => some res
      | none =>
        reRun fuel a s caps (fun s' caps' =>
          if s'.length < s.length then reRun fuel (.lstar a) s' caps' k else none)

/-- A call-depth bound that the engine never exhausts (see `reRun`). -/
def reFuel (r : RE) (s : List Char) : Nat :=
  (reSize r + 1) * (s.length + 1) + 1

/-- `\d` -/
def dRE : RE := .cls (·.isDigit)

/-- `[A-Z]` -/
def upperRE : RE := .cls (fun c => 'A' ≤ c && c ≤ 'Z')

/-- `[A-Za-z]` -/
def alphaRE : RE := .cls (fun c => ('A' ≤ c && c ≤ 'Z') || ('a' ≤ c && c ≤ 'z'))

/-- `\s` -/
def sRE : RE := .cls isSpaceChar

/-- A literal character. -/
def chRE (c : Char) : RE := .cls (· = c)

/-- `x?` (greedy option). -/
def optRE (a : RE) : RE := .alt a .eps

/-- `x+` (greedy plus). -/
def plusRE (a : RE) : RE := .seq a (.star a)

/-- `\d{1,3}` (greedy: three digits preferred, then two, then one). -/
def d13RE : RE := .seq dRE (optRE (.seq dRE (optRE dRE)))

/-- `NUM_DEC = \d{1,3}(?:,\d{3})*\.\d{2}` — the monetary-token grammar
shared by both source files. -/
def numRE : RE :=
  .seq d13RE
    (.seq (.star (.seq (chRE ',') (.seq dRE (.seq dRE dRE))))
      (.seq (chRE '.') (.seq dRE dRE)))

/-- `\d{2}/[A-Z]{3}` — one debit-header date token. -/
def dateDebRE : RE :=
  .seq dRE (.seq dRE (.seq (chRE '/') (.seq upperRE (.seq upperRE upperRE))))

/-- `RE_FECHA = ^(\d{2}/[A-Z]{3})\s+(\d{2}/[A-Z]{3})\s+(.*)` — the
debit header grammar (`.` is any character but a newline). -/
def fechaRE : RE :=
  .seq (.grp 1 dateDebRE)
    (.seq (plusRE sRE)
      (.seq (.grp 2 dateDebRE)
        (.seq (plusRE sRE)
          (.grp 3 (.star (.cls (· ≠ '\n')))))))

/-- `\d{2}-[A-Za-z]{3}-\d{4}` — one credit-line date token. -/
def dateCredRE : RE :=
  .seq dRE (.seq dRE (.seq (chRE '-')
    (.seq alphaRE (.seq alphaRE (.seq alphaRE
      (.seq (chRE '-') (.seq dRE (.seq dRE (.seq dRE dRE)))))))))

/-- `RE_CREDITO` of the Streamlit variant:
`^(?P<fecha_oper>\d{2}-[A-Za-z]{3}-\d{4})\s+(?P<fecha_cargo>\d{2}-[A-Za-z]{3}-\d{4})\s+(?P<desc>.+?)\s+(?P<sign>[+-])\s*\$?\s*(?P<val>NUM_DEC)$`
with groups numbered 1 = fecha_oper, 2 = fecha_cargo, 3 = desc,
4 = sign, 5 = val. -/
def creditoRE : RE :=
  .seq (.grp 1 dateCredRE)
    (.seq (plusRE sRE)
      (.seq (.grp 2 dateCredRE)
        (.seq (plusRE sRE)
          (.seq (.grp 3 (.seq (.cls (· ≠ '\n')) (.lstar (.cls (· ≠ '\n')))))
            (.seq (plusRE sRE)
              (.seq (.grp 4 (.cls (fun c => c = '+' || c = '-')))
                (.seq (.star sRE)
                  (.seq (optRE (chRE '$'))
                    (.seq (.star sRE) (.grp 5 numRE))))))))))

/-- `RE_FECHA.match(line)`: anchored at the start, the remainder after
group 3 unconstrained (the greedy `(.*)` consumes up to the line end
or the first newline). -/
def matchFecha (l : String) : Option (String × String × String) :=
  match reRun (reFuel fechaRE l.toList) fechaRE l.toList [] (fun _ caps => some caps) with
  | some caps => some (capGet caps 1, capGet caps 2, capGet caps 3)
  | none => none

/-- `RE_CREDITO.search(line)`: the `^` anchor restricts the search to
position 0 and the trailing `$` accepts the line end (or a final
newline, as in Python). -/
def creditCaps (l : String) : Option Caps :=
  reRun (reFuel creditoRE l.toList) creditoRE l.toList []
    (fun s' caps => if s' = [] || s' = ['\n'] then some caps else none)

/-- One unanchored attempt of `RE_NUMS` at the head of `s`: on success
the matched token and the unconsumed suffix. -/
def matchNumAt (s : List Char) : Option (List Char × List Char) :=
  match reRun (reFuel numRE s) numRE s [] (fun s' _ => some s') with
  | some s' => some (s.take (s.length - s'.length), s')
  | none => none

/-- `RE_NUMS.findall`: scan left to right, take each leftmost match
and resume after it.  Every match of `NUM_DEC` consumes at least four
characters, so the fuel `s.length` is never exhausted. -/
def findallAux : Nat → List Char → List String
  | 0, _ => []
  | _, [] => []
  | fuel + 1, s@(_ :: rest) =>
    match matchNumAt s with
    | some (tok, rest') => tok.asString :: findallAux fuel rest'
    | none => findallAux fuel rest

/-- `RE_NUMS.findall(s)`. -/
def findallNums (s : String) : List String :=
  findallAux (s.toList.length + 1) s.toList

/-- Auxiliary scan for `RE_NUMS.sub("", s)`: drop each match, keep
every unmatched character. -/
def subNumsAux : Nat → List Char → List Char
  | 0, s => s
  | _, [] => []
  | fuel + 1, s@(c :: rest) =>
    match matchNumAt s with
    | some (_, rest') => subNumsAux fuel rest'
    | none => c :: subNumsAux fuel rest

/-- `RE_NUMS.sub("", s)`. -/
def subNums (s : String) : String :=
  (subNumsAux (s.toList.length + 1) s.toList).asString

/-- Value of a digit string, most significant first. -/
def digitsVal (cs : List Char) : Nat :=
  cs.foldl (fun acc c => acc * 10 + (c.toNat - '0'.toNat)) 0

/-- Python `float` on the plain decimal literals reachable here:
an all-digit string, or digits, one dot, digits (at least one digit
in total).  Exact rational value; anything else is rejected. -/
def parseDec (cs : List Char) : Option ℚ :=
  let a := cs.takeWhile (· ≠ '.')
  match cs.dropWhile (· ≠ '.') with
  | [] =>
    if !a.isEmpty && a.all (·.isDigit) then some (Rat.divInt (digitsVal a) 1) else none
  | _ :: b =>
    if (a ++ b).all (·.isDigit) && !(a ++ b).isEmpty then
      some (Rat.divInt (digitsVal a * 10 ^ b.length + digitsVal b) (10 ^ b.length))
    else none

/-- `clean_num = lambda s: float(s.replace(",", "")) if s else None`.
`.ok none` is the `if s else None` branch on the empty string,
`.error ()` the `ValueError` that `float` raises on a string that is
not a decimal literal. -/
def clean_num (s : String) : Except Unit (Option ℚ) :=
  if s = "" then .ok none
  else
    match parseDec (s.toList.filter (· ≠ ',')) with
    | some q => .ok (some q)
    | none => .error ()

/-- `clean_num` as used on tokens produced by `RE_NUMS`: such tokens
always parse, so the `ValueError` case is unreachable and collapsing
it to `none` is observationally identical. -/
def cleanTok (s : String) : Option ℚ :=
  match clean_num s with
  | .ok v => v
  | .error _ => none

/-- Python `str.lower()` (ASCII). -/
def lowerStr (s : String) : String :=
  (s.toList.map Char.toLower).asString

/-- Python `str.upper()` (ASCII). -/
def upperStr (s : String) : String :=
  (s.toList.map Char.toUpper).asString

/-- Python `needle in hay` on strings: substring containment. -/
def substrB (needle hay : List Char) : Bool :=
  if needle.isPrefixOf hay then true
  else
    match hay with
    | [] => false
    | _ :: t => substrB needle t

/-- Python `str.strip()` (ASCII whitespace). -/
def stripStr (s : String) : String :=
  (((s.toList.dropWhile isSpaceChar).reverse.dropWhile isSpaceChar).reverse).asString

/-- A debit-style transaction record: the columns `Descripción`,
`Cargo`, `Abono` of `parse_debito` in `extractor_estado_cuenta_bbva.py`. -/
structure DebitRecord : Type where
  descripcion : String
  cargo : Option ℚ
  abono : Option ℚ
  deriving DecidableEq, Repr

/-- Seeding of the in-progress record from the header remainder
(`tail = head.group(3)`), lines 65–74 of the batch source: one numeric
token → `abono`, several → first one as `cargo`; all tokens are then
stripped from the remainder, and the stripped residue (if non-empty)
becomes the first description fragment. -/
def seedDebit (tail : String) : Option ℚ × Option ℚ × List String :=
  let nums := findallNums tail
  let ca : Option ℚ × Option ℚ :=
    if nums.isEmpty then (none, none)
    else if nums.length = 1 then (none, cleanTok (nums.headD ""))
    else (cleanTok (nums.headD ""), none)
  let tail' := if nums.isEmpty then tail else stripStr (subNums tail)
  (ca.1, ca.2, if tail' ≠ "" then [tail'] else [])

/-- One continuation line in the accumulation loop, lines 78–90 of the
batch source: skip empty or "referencia" lines; a line with numeric
tokens fills the still-missing amount (one token → `abono`, several →
first as `cargo`); a line without numeric tokens extends the
description; any other line is ignored. -/
def accumStep (st : Option ℚ × Option ℚ × List String) (l : String) :
    Option ℚ × Option ℚ × List String :=
  let (cargo, abono, descs) := st
  if l = "" || substrB "referencia".toList (lowerStr l).toList then st
  else
    let nums := findallNums l
    if !nums.isEmpty && cargo.isNone && abono.isNone then
      if nums.length = 1 then (cargo, cleanTok (nums.headD ""), descs)
      else (cleanTok (nums.headD ""), abono, descs)
    else if nums.isEmpty then (cargo, abono, descs ++ [l])
    else st

/-- Sealing of a grouped record, lines 92–99 of the batch source: join
the description fragments with single spaces, apply the
`SPEI RECIBIDO` sign correction (a charge with no credit becomes a
credit), and discard the record when both amounts are unset. -/
def sealDebit (cargo abono : Option ℚ) (descs : List String) : List DebitRecord :=
  let descripcion := String.intercalate " " descs
  let ca : Option ℚ × Option ℚ :=
    if substrB "SPEI RECIBIDO".toList (upperStr descripcion).toList
        && cargo.isSome && abono.isNone then
      (none, cargo)
    else (cargo, abono)
  if ca.1.isNone && ca.2.isNone then []
  else [⟨descripcion, ca.1, ca.2⟩]

/-- State of the debit grouper: between records, or accumulating an
in-progress record (charge, credit, description fragments). -/
inductive PDState : Type where
  | seeking
  | accum (cargo abono : Option ℚ) (descs : List String)

/-- The debit grouper as the two-state machine equivalent to the
nested while loops of `parse_debito`: in `seeking`, a header line
seeds a fresh record; in `accum`, a header line seals the current
record and seeds the next, any other line goes through `accumStep`,
and the end of input seals. -/
def pdGo : List String → PDState → List DebitRecord
  | [], .seeking => []
  | [], .accum c a d => sealDebit c a d
  | l :: rest, .seeking =>
    match matchFecha l with
    | none => pdGo rest .seeking
    | some (_, _, tail) =>
      match seedDebit tail with
      | (c, a, d) => pdGo rest (.accum c a d)
  | l :: rest, .accum c a d =>
    match matchFecha l with
    | some (_, _, tail) =>
      sealDebit c a d ++
        (match seedDebit tail with
          | (c', a', d') => pdGo rest (.accum c' a' d'))
    | none =>
      match accumStep (c, a, d) l with
      | (c', a', d') => pdGo rest (.accum c' a' d')

/-- `parse_debito(lines)` (without the final DataFrame wrapper). -/
def parse_debito (lines : List String) : List DebitRecord :=
  pdGo lines .seeking

/-- A credit-style transaction record: the columns of the Streamlit
`parse_credito` (`Fecha de la operación`, `Fecha de cargo`,
`Descripción del movimiento`, `Monto`), before the date-typing
post-pass. -/
structure CreditRecord : Type where
  fecha_oper : String
  fecha_cargo : String
  descripcion : String
  monto : ℚ
  deriving DecidableEq, Repr

/-- Monetary value of a regex-matched token (the `ValueError` and
empty cases of `clean_num` are unreachable on such tokens). -/
def tokq (s : String) : ℚ :=
  (cleanTok s).getD 0

/-- One line of the Streamlit `parse_credito`, lines 115–127: emit a
record exactly when `RE_CREDITO` matches, with
`monto = val if sign == "+" else -val`. -/
def parseCreditoLine (l : String) : Option CreditRecord :=
  match creditCaps l with
  | none => none
  | some caps =>
    some
      { fecha_oper := capGet caps 1
        fecha_cargo := capGet caps 2
        descripcion := capGet caps 3
        monto :=
          if capGet caps 4 = "+" then tokq (capGet caps 5)
          else -(tokq (capGet caps 5)) }

/-- `parse_credito(lines)` of the Streamlit variant (without the
DataFrame wrapper and the date-typing post-pass). -/
def parse_credito (lines : List String) : List CreditRecord :=
  lines.filterMap parseCreditoLine

/-- `total_abono = df[df["Monto"] > 0]["Monto"].sum()` (Streamlit,
credit branch, line 165). -/
def total_abono (rs : List CreditRecord) : ℚ :=
  ((rs.map (·.monto)).filter (fun m => 0 < m)).sum

/-- `total_cargo = -df[df["Monto"] < 0]["Monto"].sum()` (Streamlit,
credit branch, line 166). -/
def total_cargo (rs : List CreditRecord) : ℚ :=
  -((rs.map (·.monto)).filter (fun m => m < 0)).sum

/-- The credit-branch `Totales` sheet, lines 177–180: the label
`"Total cargos"` is paired with `total_abono` and `"Total abonos"`
with `total_cargo`, exactly as in the source. -/
def totalesCredito (rs : List CreditRecord) : List (String × ℚ) :=
  [("Total cargos", total_abono rs), ("Total abonos", total_cargo rs)]

/-- Comma-grouped digit triples: the `(?:,\d{3})*` part of a full
token. -/
def checkGroups : List Char → Bool
  | [] => true
  | ',' :: a :: b :: c :: rest =>
    a.isDigit && b.isDigit && c.isDigit && checkGroups rest
  | _ => false

/-- The integer part of a full token: one to three leading digits
followed by comma-grouped triples (`\d{1,3}(?:,\d{3})*`). -/
def checkIntPart (cs : List Char) : Bool :=
  let ds := cs.takeWhile (·.isDigit)
  decide (1 ≤ ds.length) && decide (ds.length ≤ 3) &&
    checkGroups (cs.dropWhile (·.isDigit))

/-- Full-string membership in the monetary-token grammar `NUM_DEC`:
integer part, a dot, exactly two fractional digits. -/
def isNumToken (s : String) : Bool :=
  let cs := s.toList
  let a := cs.takeWhile (· ≠ '.')
  match cs.dropWhile (· ≠ '.') with
  | '.' :: b => checkIntPart a && decide (b.length = 2) && b.all (·.isDigit)
  | _ => false

instance {ε α : Type} [DecidableEq ε] [DecidableEq α] : DecidableEq (Except ε α) :=
  fun x y =>
    match x, y with
    | .ok a, .ok b =>
      if h : a = b then .isTrue (by rw [h]) else .isFalse (fun e => h (Except.ok.inj e))
    | .error a, .error b =>
      if h : a = b then .isTrue (by rw [h]) else .isFalse (fun e => h (Except.error.inj e))
    | .ok _, .error _ => .isFalse (fun e => Except.noConfusion e)
    | .error _, .ok _ => .isFalse (fun e => Except.noConfusion e)

/-! ## Theorems -/

/-- The invariant maintained by the debit grouper while a record is in
progress: never both amounts set. -/
def stateInv : PDState → Prop
  | .seeking => True
  | .accum c a _ => ¬(c.isSome = true ∧ a.isSome = true)

theorem seedDebit_inv (tail : String) :
    ¬((seedDebit tail).1.isSome = true ∧ (seedDebit tail).2.1.isSome = true) := by
  simp only [seedDebit]
  split_ifs <;> simp

theorem accumStep_inv (c a : Option ℚ) (d : List String) (l : String)
    (h : ¬(c.isSome = true ∧ a.isSome = true)) :
    ¬((accumStep (c, a, d) l).1.isSome = true ∧
      (accumStep (c, a, d) l).2.1.isSome = true) := by
  simp only [accumStep]
  split_ifs <;> simp_all

theorem sealDebit_exactlyOne (c a : Option ℚ) (d : List String)
    (h : ¬(c.isSome = true ∧ a.isSome = true)) :
    ∀ r ∈ sealDebit c a d,
      (r.cargo.isSome = true ∧ r.abono = none) ∨
      (r.cargo = none ∧ r.abono.isSome = true) := by
  cases c <;> cases a <;>
    simp only [sealDebit] <;> split_ifs <;> simp_all

theorem pdGo_exactlyOne (lines : List String) :
    ∀ st : PDState, stateInv st →
      ∀ r ∈ pdGo lines st,
        (r.cargo.isSome = true ∧ r.abono = none) ∨
        (r.cargo = none ∧ r.abono.isSome = true) := by
  induction lines with
  | nil =>
    intro st hst r hr
    cases st with
    | seeking => simp [pdGo] at hr
    | accum c a d => exact sealDebit_exactlyOne c a d hst r hr
  | cons l rest ih =>
    intro st hst r hr
    cases st with
    | seeking =>
      simp only [pdGo] at hr
      cases hm : matchFecha l with
      | none => rw [hm] at hr; exact ih .seeking trivial r hr
      | some g =>
        rw [hm] at hr
        exact ih (.accum (seedDebit g.2.2).1 (seedDebit g.2.2).2.1 (seedDebit g.2.2).2.2)
          (seedDebit_inv g.2.2) r hr
    | accum c a d =>
      simp only [pdGo] at hr
      cases hm : matchFecha l with
      | none =>
        rw [hm] at hr
        exact ih (.accum (accumStep (c, a, d) l).1 (accumStep (c, a, d) l).2.1
          (accumStep (c, a, d) l).2.2) (accumStep_inv c a d l hst) r hr
      | some g =>
        rw [hm] at hr
        rcases List.mem_append.mp hr with hseal | hrest
        · exact sealDebit_exactlyOne c a d hst r hseal
        · exact ih (.accum (seedDebit g.2.2).1 (seedDebit g.2.2).2.1 (seedDebit g.2.2).2.2)
            (seedDebit_inv g.2.2) r hrest

/-- C1: on a debit header line, after the two date tokens are removed,
a remainder with exactly one numeric token seeds the record with that
token's value as the credit (`Abono`) and no charge; a remainder with
several numeric tokens seeds the first token's value as the charge
(`Cargo`) with no credit, every later token being discarded (the
description keeps only the token-stripped residue). -/
theorem claim1_header_amount_seeding (line d1 d2 tail : String)
    (_hmatch : matchFecha line = some (d1, d2, tail)) :
    ((findallNums tail).length = 1 →
      seedDebit tail =
        (none, cleanTok ((findallNums tail).headD ""),
          if stripStr (subNums tail) ≠ "" then [stripStr (subNums tail)] else [])) ∧
    (1 < (findallNums tail).length →
      seedDebit tail =
        (cleanTok ((findallNums tail).headD ""), none,
          if stripStr (subNums tail) ≠ "" then [stripStr (subNums tail)] else [])) := by
  constructor
  · intro h1
    have hne : (findallNums tail).isEmpty = false := by
      cases hfa : findallNums tail with
      | nil => rw [hfa] at h1; simp at h1
      | cons x xs => simp
    simp [seedDebit, hne, h1]
  · intro h2
    have hne : (findallNums tail).isEmpty = false := by
      cases hfa : findallNums tail with
      | nil => rw [hfa] at h2; simp at h2
      | cons x xs => simp
    have hlen : ¬((findallNums tail).length = 1) := by omega
    simp [seedDebit, hne, hlen]

/-- Witness for C1 at the spec's example header
`"01/JAN 02/JAN PAGO SERVICIO 1,234.56"`. -/
theorem claim1_header_amount_seeding_witness :
    seedDebit "PAGO SERVICIO 1,234.56" =
      (none, cleanTok ((findallNums "PAGO SERVICIO 1,234.56").headD ""),
        if stripStr (subNums "PAGO SERVICIO 1,234.56") ≠ "" then
          [stripStr (subNums "PAGO SERVICIO 1,234.56")] else []) :=
  (claim1_header_amount_seeding "01/JAN 02/JAN PAGO SERVICIO 1,234.56"
    "01/JAN" "02/JAN" "PAGO SERVICIO 1,234.56" (by decide)).1 (by decide)

/-- C2: at sealing time, a joined description containing
`"SPEI RECIBIDO"` (the source checks the upper-cased description, so
the test is case-insensitive) with a charge set and no credit moves
the value to the credit field and clears the charge; in every other
case the assigned amounts are emitted unchanged (and the record is
dropped when both are unset). -/
theorem claim2_spei_sign_correction (cargo abono : Option ℚ) (descs : List String) :
    ((substrB "SPEI RECIBIDO".toList
        (upperStr (String.intercalate " " descs)).toList
        && cargo.isSome && abono.isNone) = true →
      sealDebit cargo abono descs =
        [⟨String.intercalate " " descs, none, cargo⟩]) ∧
    ((substrB "SPEI RECIBIDO".toList
        (upperStr (String.intercalate " " descs)).toList
        && cargo.isSome && abono.isNone) = false →
      sealDebit cargo abono descs =
        if cargo.isNone && abono.isNone then []
        else [⟨String.intercalate " " descs, cargo, abono⟩]) := by
  constructor
  · intro h
    have h' := h
    simp only [Bool.and_eq_true] at h'
    obtain ⟨⟨-, hc⟩, -⟩ := h'
    simp only [sealDebit, h]
    cases cargo with
    | none => simp at hc
    | some x => simp
  · intro h
    simp only [sealDebit, h]
    cases cargo <;> cases abono <;> simp

/-- Witness for C2 at the spec's example description
`"SPEI RECIBIDO DE JUAN PEREZ"` with the amount captured as charge. -/
theorem claim2_spei_sign_correction_witness :
    sealDebit (some 100) none ["SPEI RECIBIDO DE JUAN PEREZ"] =
      [⟨String.intercalate " " ["SPEI RECIBIDO DE JUAN PEREZ"], none, some 100⟩] :=
  (claim2_spei_sign_correction (some 100) none ["SPEI RECIBIDO DE JUAN PEREZ"]).1
    (by decide)

/-- C3: a grouped record with neither amount set is never emitted by
the sealing step, and two consecutive header lines with no numeric
token anywhere produce no record at all. -/
theorem claim3_incomplete_record_discarded :
    (∀ descs, sealDebit none none descs = []) ∧
    (∀ l1 l2 a b t1 c d t2, matchFecha l1 = some (a, b, t1) →
      matchFecha l2 = some (c, d, t2) →
      findallNums t1 = [] → findallNums t2 = [] →
      parse_debito [l1, l2] = []) := by
  have hseal : ∀ descs, sealDebit none none descs = [] := by
    intro descs; simp [sealDebit]
  refine ⟨hseal, ?_⟩
  intro l1 l2 a b t1 c d t2 h1 h2 hn1 hn2
  have hseed1 : seedDebit t1 = (none, none, if t1 ≠ "" then [t1] else []) := by
    simp [seedDebit, hn1]
  have hseed2 : seedDebit t2 = (none, none, if t2 ≠ "" then [t2] else []) := by
    simp [seedDebit, hn2]
  simp [parse_debito, pdGo, h1, h2, hseed1, hseed2, hseal]

/-- Witness for C3 with two amount-free header lines. -/
theorem claim3_incomplete_record_discarded_witness :
    parse_debito ["01/JAN 02/JAN PAGO", "03/FEB 04/FEB OTRO"] = [] :=
  claim3_incomplete_record_discarded.2 "01/JAN 02/JAN PAGO" "03/FEB 04/FEB OTRO"
    "01/JAN" "02/JAN" "PAGO" "03/FEB" "04/FEB" "OTRO"
    (by decide) (by decide) (by decide) (by decide)

/-- C6: a continuation line that is empty or contains "referencia"
(case-insensitively, via the lower-cased line) is skipped entirely:
the in-progress record is unchanged and the grouper just advances. -/
theorem claim6_referencia_skip (c a : Option ℚ) (d : List String)
    (l : String) (rest : List String)
    (hhead : matchFecha l = none)
    (hskip : l = "" ∨ substrB "referencia".toList (lowerStr l).toList = true) :
    accumStep (c, a, d) l = (c, a, d) ∧
    pdGo (l :: rest) (.accum c a d) = pdGo rest (.accum c a d) := by
  have hcond : (l = "" || substrB "referencia".toList (lowerStr l).toList) = true := by
    rcases hskip with h | h
    · subst h; simp
    · rw [h, Bool.or_true]
  have hstep : accumStep (c, a, d) l = (c, a, d) := by
    unfold accumStep
    simp only [hcond, if_true]
  refine ⟨hstep, ?_⟩
  simp only [pdGo, hhead, hstep]

/-- Witness for C6 at the spec's example line
`"Referencia: 00112233"` (digits present, still skipped). -/
theorem claim6_referencia_skip_witness :
    accumStep (some 1, none, ["X"]) "Referencia: 00112233" = (some 1, none, ["X"]) ∧
    pdGo ["Referencia: 00112233"] (.accum (some 1) none ["X"]) =
      pdGo [] (.accum (some 1) none ["X"]) :=
  claim6_referencia_skip (some 1) none ["X"] "Referencia: 00112233" []
    (by decide) (Or.inr (by decide))

/-- C9: a continuation line carrying at least one numeric token never
extends the description, and when an amount is already assigned such a
line leaves the in-progress record completely unchanged. -/
theorem claim9_numeric_line_not_description (c a : Option ℚ) (d : List String)
    (l : String) (hnums : findallNums l ≠ []) :
    (accumStep (c, a, d) l).2.2 = d ∧
    ((c.isSome = true ∨ a.isSome = true) → accumStep (c, a, d) l = (c, a, d)) := by
  have hne : (findallNums l).isEmpty = false := by
    cases hfa : findallNums l with
    | nil => exact absurd hfa hnums
    | cons x xs => simp
  refine ⟨?_, ?_⟩
  · simp only [accumStep, hne]
    split_ifs <;> simp_all
  · intro hca
    rcases c with _ | x
    · rcases a with _ | y
      · simp at hca
      · simp only [accumStep, hne]
        split_ifs <;> simp_all
    · simp only [accumStep, hne]
      split_ifs <;> simp_all

/-- Witness for C9: a numeric continuation line after the charge is
already assigned. -/
theorem claim9_numeric_line_not_description_witness :
    (accumStep (some 5, none, ["D"]) "ABC 1.00").2.2 = ["D"] ∧
    accumStep (some 5, none, ["D"]) "ABC 1.00" = (some 5, none, ["D"]) :=
  ⟨(claim9_numeric_line_not_description (some 5) none ["D"] "ABC 1.00"
      (by decide)).1,
   (claim9_numeric_line_not_description (some 5) none ["D"] "ABC 1.00"
      (by decide)).2 (Or.inl rfl)⟩

/-- C4: the credit-style matcher emits a record exactly when the line
matches `RE_CREDITO` end to end (two `DD-Mon-YYYY` dates, non-greedy
description, sign, optional `$`, monetary token at the line end), the
emitted amount being the token's value for `+` and its negation for
`-`; the spec's two example lines and a signless line behave
accordingly. -/
theorem claim4_credit_single_line_grammar :
    (∀ l, (parseCreditoLine l).isSome ↔ (creditCaps l).isSome) ∧
    (∀ l caps, creditCaps l = some caps →
      parseCreditoLine l = some
        { fecha_oper := capGet caps 1
          fecha_cargo := capGet caps 2
          descripcion := capGet caps 3
          monto := if capGet caps 4 = "+" then tokq (capGet caps 5)
                   else -(tokq (capGet caps 5)) }) ∧
    parse_credito ["03-Mar-2025 03-Mar-2025 COMPRA TIENDA - $529.00"] =
      [⟨"03-Mar-2025", "03-Mar-2025", "COMPRA TIENDA", -529⟩] ∧
    parse_credito ["03-Mar-2025 03-Mar-2025 COMPRA TIENDA + $529.00"] =
      [⟨"03-Mar-2025", "03-Mar-2025", "COMPRA TIENDA", 529⟩] ∧
    parse_credito ["03-Mar-2025 03-Mar-2025 SIN SIGNO 529.00"] = [] := by
  refine ⟨?_, ?_, ?_, ?_, ?_⟩
  · intro l
    unfold parseCreditoLine
    cases creditCaps l <;> simp
  · intro l caps h
    simp [parseCreditoLine, h]
  · decide
  · decide
  · decide

/-- Witness for C4 at a line whose description itself contains a sign
character (the lazy description still stops before the last sign). -/
theorem claim4_credit_single_line_grammar_witness :
    parseCreditoLine "01-Jan-2025 02-Jan-2025 A + B - $1.00" =
      some
        { fecha_oper :=
            capGet [(5, "1.00"), (4, "-"), (3, "A + B"), (2, "02-Jan-2025"), (1, "01-Jan-2025")] 1
          fecha_cargo :=
            capGet [(5, "1.00"), (4, "-"), (3, "A + B"), (2, "02-Jan-2025"), (1, "01-Jan-2025")] 2
          descripcion :=
            capGet [(5, "1.00"), (4, "-"), (3, "A + B"), (2, "02-Jan-2025"), (1, "01-Jan-2025")] 3
          monto :=
            if capGet [(5, "1.00"), (4, "-"), (3, "A + B"), (2, "02-Jan-2025"), (1, "01-Jan-2025")] 4
                = "+" then
              tokq (capGet
                [(5, "1.00"), (4, "-"), (3, "A + B"), (2, "02-Jan-2025"), (1, "01-Jan-2025")] 5)
            else
              -(tokq (capGet
                [(5, "1.00"), (4, "-"), (3, "A + B"), (2, "02-Jan-2025"), (1, "01-Jan-2025")] 5)) } :=
  claim4_credit_single_line_grammar.2.1 "01-Jan-2025 02-Jan-2025 A + B - $1.00"
    [(5, "1.00"), (4, "-"), (3, "A + B"), (2, "02-Jan-2025"), (1, "01-Jan-2025")] (by decide)

/-- C5 counterexample: a grammar-matching credit line whose monetary
token is `0.00` is emitted with signed amount `0`, so the claimed
"signed amount is nonzero" invariant fails on the code. -/
theorem claim5_counterexample_zero_amount :
    parse_credito ["01-Jan-2025 02-Jan-2025 DEPOSITO + 0.00"] =
      [⟨"01-Jan-2025", "02-Jan-2025", "DEPOSITO", 0⟩] := by
  decide

/-- C5 (amended): every emitted debit-style record has exactly one of
the charge and credit fields set; every emitted credit-style record
carries the matched token's value with the matched sign applied —
which is zero exactly when the token denotes zero, so the amount need
not be nonzero. -/
theorem claim5_record_invariant_amended :
    (∀ lines, ∀ r ∈ parse_debito lines,
      (r.cargo.isSome = true ∧ r.abono = none) ∨
      (r.cargo = none ∧ r.abono.isSome = true)) ∧
    (∀ l r, parseCreditoLine l = some r →
      ∃ caps, creditCaps l = some caps ∧
        r.monto = (if capGet caps 4 = "+" then tokq (capGet caps 5)
                   else -(tokq (capGet caps 5)))) := by
  constructor
  · intro lines r hr
    exact pdGo_exactlyOne lines .seeking trivial r hr
  · intro l r h
    unfold parseCreditoLine at h
    cases hc : creditCaps l with
    | none => rw [hc] at h; simp at h
    | some caps =>
      rw [hc] at h
      simp only [Option.some.injEq] at h
      exact ⟨caps, rfl, by rw [← h]⟩

/-- Witness for C5 (amended) on a record produced from a two-token
header line. -/
theorem claim5_record_invariant_amended_witness :
    ((⟨"COMPRA", some 10, none⟩ : DebitRecord).cargo.isSome = true ∧
      (⟨"COMPRA", some 10, none⟩ : DebitRecord).abono = none) ∨
    ((⟨"COMPRA", some 10, none⟩ : DebitRecord).cargo = none ∧
      (⟨"COMPRA", some 10, none⟩ : DebitRecord).abono.isSome = true) :=
  claim5_record_invariant_amended.1 ["01/JAN 02/JAN COMPRA 10.00 20.00"]
    ⟨"COMPRA", some 10, none⟩ (by decide)

theorem abs_sum_of_neg (l : List ℚ) (h : ∀ x ∈ l, x < 0) :
    (l.map (fun m => |m|)).sum = -l.sum := by
  induction l with
  | nil => simp
  | cons x xs ih =>
    simp only [List.map_cons, List.sum_cons]
    rw [abs_of_neg (h x (List.mem_cons_self x xs)),
      ih (fun y hy => h y (List.mem_cons_of_mem x hy))]
    ring

/-- C7: in the credit branch the `Totales` output pairs the label
`"Total cargos"` with the sum of the positive signed amounts and
`"Total abonos"` with the sum of the magnitudes of the negative
ones — the inverted label/value pairing of the source. -/
theorem claim7_credit_totals_label_inversion (rs : List CreditRecord) :
    totalesCredito rs =
      [("Total cargos", ((rs.map (·.monto)).filter (fun m => 0 < m)).sum),
       ("Total abonos",
        (((rs.map (·.monto)).filter (fun m => m < 0)).map (fun m => |m|)).sum)] := by
  have h2 : (((rs.map (·.monto)).filter (fun m => m < 0)).map (fun m => |m|)).sum
      = -((rs.map (·.monto)).filter (fun m => m < 0)).sum := by
    apply abs_sum_of_neg
    intro x hx
    exact of_decide_eq_true (List.mem_filter.mp hx).2
  simp [totalesCredito, total_abono, total_cargo, h2]

/-- Witness for C7 on a two-record sequence with one positive and one
negative amount. -/
theorem claim7_credit_totals_label_inversion_witness :
    totalesCredito [⟨"a", "b", "c", 5⟩, ⟨"a", "b", "c", -3⟩] =
      [("Total cargos",
        ((([⟨"a", "b", "c", 5⟩, ⟨"a", "b", "c", -3⟩] : List CreditRecord).map
          (·.monto)).filter (fun m => 0 < m)).sum),
       ("Total abonos",
        (((([⟨"a", "b", "c", 5⟩, ⟨"a", "b", "c", -3⟩] : List CreditRecord).map
          (·.monto)).filter (fun m => m < 0)).map (fun m => |m|)).sum)] :=
  claim7_credit_totals_label_inversion [⟨"a", "b", "c", 5⟩, ⟨"a", "b", "c", -3⟩]

theorem digit_ne_comma {c : Char} (h : c.isDigit = true) : c ≠ ',' := by
  intro e; subst e; exact absurd h (by decide)

theorem digit_ne_dot {c : Char} (h : c.isDigit = true) : c ≠ '.' := by
  intro e; subst e; exact absurd h (by decide)

theorem takeWhile_append_stop (p : Char → Bool) (a : List Char) (c : Char) (b : List Char)
    (ha : a.all p = true) (hc : p c = false) :
    (a ++ c :: b).takeWhile p = a ∧ (a ++ c :: b).dropWhile p = c :: b := by
  induction a with
  | nil => simp [List.takeWhile, List.dropWhile, hc]
  | cons x xs ih =>
    simp only [List.all_cons, Bool.and_eq_true] at ha
    simp [List.takeWhile, List.dropWhile, ha.1, ih ha.2]

theorem checkGroups_filter (g : List Char) (h : checkGroups g = true) :
    ((g.filter (fun c => c ≠ ',')).all (·.isDigit)) = true := by
  induction g using checkGroups.induct <;> simp_all [checkGroups]

theorem dropWhile_head_false (p : Char → Bool) (l : List Char) (c : Char) (cs : List Char)
    (h : l.dropWhile p = c :: cs) : p c = false := by
  induction l with
  | nil => simp at h
  | cons x xs ih =>
    rw [List.dropWhile_cons] at h
    by_cases hx : p x = true
    · rw [if_pos hx] at h
      exact ih h
    · rw [if_neg hx] at h
      obtain ⟨h1, -⟩ := List.cons.inj h
      rw [← h1]
      simpa using hx

/-- C8: `clean_num` strips grouping commas and yields the exact
decimal value (`"12,345.67"` ↦ 12345.67, `"1.00"` ↦ 1), returns the
null value exactly on the empty token, and succeeds on every token of
the monetary grammar. -/
theorem claim8_clean_num_normalization :
    (∀ s, clean_num s = .ok none ↔ s = "") ∧
    clean_num "12,345.67" = .ok (some (Rat.divInt 1234567 100)) ∧
    clean_num "1.00" = .ok (some 1) ∧
    (∀ s, isNumToken s = true → ∃ q : ℚ, clean_num s = .ok (some q)) := by
  refine ⟨?_, by decide, by decide, ?_⟩
  · intro s
    constructor
    · intro h
      by_contra hne
      simp only [clean_num, if_neg hne] at h
      cases hp : parseDec (s.toList.filter (· ≠ ',')) with
      | none => rw [hp] at h; exact absurd h (by simp)
      | some q => rw [hp] at h; exact absurd h (by simp)
    · intro h; subst h; rfl
  · intro s htok
    simp only [isNumToken] at htok
    cases hd : s.toList.dropWhile (· ≠ '.') with
    | nil => rw [hd] at htok; simp at htok
    | cons c b =>
      have hcdot : c = '.' := by
        have := dropWhile_head_false (fun x => decide (x ≠ '.')) s.toList c b hd
        simpa using this
      subst hcdot
      rw [hd] at htok
      set a := s.toList.takeWhile (· ≠ '.') with ha
      set ds := a.takeWhile (·.isDigit) with hdsdef
      set gs := a.dropWhile (·.isDigit) with hgsdef
      -- the match in `isNumToken` reduces on the literal '.' head
      have htok' : (checkIntPart a && decide (b.length = 2) && b.all (·.isDigit)) = true := htok
      rw [Bool.and_eq_true, Bool.and_eq_true] at htok'
      obtain ⟨⟨hint, -⟩, hball⟩ := htok'
      simp only [checkIntPart] at hint
      rw [Bool.and_eq_true, Bool.and_eq_true] at hint
      obtain ⟨⟨hds1b, -⟩, hgs⟩ := hint
      have hds1 : 1 ≤ ds.length := of_decide_eq_true hds1b
      have hsplitA : ds ++ gs = a := List.takeWhile_append_dropWhile _ _
      have hsplitCS : s.toList = a ++ '.' :: b := by
        rw [ha, ← hd]
        exact (List.takeWhile_append_dropWhile _ _).symm
      have hdsall : ds.all (·.isDigit) = true := by
        rw [List.all_eq_true]
        intro x hx
        exact List.mem_takeWhile_imp hx
      have hdsfilter : ds.filter (fun c => c ≠ ',') = ds := by
        rw [List.filter_eq_self]
        intro x hx
        have hxd := List.all_eq_true.mp hdsall x hx
        simpa using digit_ne_comma hxd
      have hafilter : a.filter (fun c => c ≠ ',') = ds ++ gs.filter (fun c => c ≠ ',') := by
        rw [← hsplitA, List.filter_append, hdsfilter]
      have hadigits : (a.filter (fun c => c ≠ ',')).all (·.isDigit) = true := by
        rw [hafilter, List.all_append, Bool.and_eq_true]
        exact ⟨hdsall, checkGroups_filter gs hgs⟩
      have hbfilter : b.filter (fun c => c ≠ ',') = b := by
        rw [List.filter_eq_self]
        intro x hx
        have hxd := List.all_eq_true.mp hball x hx
        simpa using digit_ne_comma hxd
      have hane : a.filter (fun c => c ≠ ',') ≠ [] := by
        rw [hafilter]
        intro hemp
        cases hds : ds with
        | nil => rw [hds] at hds1; simp at hds1
        | cons y ys => rw [hds] at hemp; simp at hemp
      have hcsfilter : s.toList.filter (fun c => c ≠ ',') =
          a.filter (fun c => c ≠ ',') ++ '.' :: b := by
        rw [hsplitCS, List.filter_append]
        congr 1
        rw [List.filter_cons, if_pos (by decide), hbfilter]
      have hadot : (a.filter (fun c => c ≠ ',')).all (fun c => decide (c ≠ '.')) = true := by
        rw [List.all_eq_true]
        intro x hx
        have hxd := List.all_eq_true.mp hadigits x hx
        simpa using digit_ne_dot hxd
      obtain ⟨htake, hdrop⟩ := takeWhile_append_stop (fun c => decide (c ≠ '.'))
        (a.filter (fun c => c ≠ ',')) '.' b hadot (by decide)
      have hsne : s ≠ "" := by
        intro h0
        rw [h0] at hsplitCS
        exact absurd hsplitCS.symm (by simp)
      have hcond : ((a.filter (fun c => c ≠ ',') ++ b).all (·.isDigit)
          && !(a.filter (fun c => c ≠ ',') ++ b).isEmpty) = true := by
        have h1 : (a.filter (fun c => c ≠ ',') ++ b).all (·.isDigit) = true := by
          rw [List.all_append, Bool.and_eq_true]
          exact ⟨hadigits, hball⟩
        have h2 : (a.filter (fun c => c ≠ ',') ++ b).isEmpty = false := by
          cases hfa : a.filter (fun c => c ≠ ',') with
          | nil => exact absurd hfa hane
          | cons y ys => simp
        rw [h1, h2]
        rfl
      refine ⟨Rat.divInt
        (digitsVal (a.filter (fun c => c ≠ ',')) * 10 ^ b.length + digitsVal b)
        (10 ^ b.length), ?_⟩
      simp only [clean_num, if_neg hsne, hcsfilter, parseDec, htake, hdrop, hcond]
      simp

/-- Witness for C8: the empty-token case and a grammar token. -/
theorem claim8_clean_num_normalization_witness :
    clean_num "" = .ok none ∧ ∃ q : ℚ, clean_num "1,234.56" = .ok (some q) :=
  ⟨(claim8_clean_num_normalization.1 "").mpr rfl,
   claim8_clean_num_normalization.2.2.2 "1,234.56" (by decide)⟩

/-- C10: numeric-token extraction is an unanchored scan, so an amount
written with four ungrouped integer digits is picked up from its
second digit on: the line `"PAGO 1234.56"` yields the token
`"234.56"`, and a header carrying it is assigned the truncated value
234.56. -/
theorem claim10_unanchored_truncation :
    findallNums "PAGO 1234.56" = ["234.56"] ∧
    parse_debito ["01/JAN 02/JAN PAGO 1234.56"] =
      [⟨"PAGO 1", none, some (Rat.divInt 23456 100)⟩] := by
  constructor
  · decide
  · decide

end BBVA
